import Mathlib

/-!
Shallow embedding of the node-graph effect-chain editor of `glitch-lamp`
(the later `option.js` revision, `src/unnamed/part_003`), together with
proofs of the chain-model, normalization and viewport-zoom properties.

JavaScript values are modelled as follows:
* node/effect ids are `String`; the empty string stands for a falsy id
  (`!fromId` in the source is `fromId = ""` here);
* an `inputs` array holds `Option String` entries, `none` standing for the
  source's `null` entries (and for array holes, which behave the same in
  every comparison the source performs);
* numbers appearing in positions and the viewport are rationals `ℚ`
  (exact arithmetic standing in for IEEE doubles);
* absent object fields are `Option` fields on the raw (wire-format) entry.
-/

/-- Option values stored in a node's `options` map:
`map<string, bool|number|string>` in the wire format. -/
inductive OptValue where
  | b : Bool → OptValue
  | num : ℚ → OptValue
  | str : String → OptValue
deriving DecidableEq, Repr

/-- A node's option map, as an association list. -/
abbrev Options := List (String × OptValue)

/-- A world-space position `{x, y}`. -/
structure Pos where
  x : ℚ
  y : ℚ
deriving DecidableEq, Repr

/-- A canonical chain node: `{id, name, options, inputs, position}`. -/
structure ChainNode where
  id : String
  name : String
  options : Options
  inputs : List (Option String)
  position : Pos
deriving DecidableEq, Repr

/-- `getMaxInputs(effectName)` from part_003 lines 301-307. -/
def getMaxInputs (effectName : String) : Nat :=
  if effectName = "mix" then 2
  else if effectName = "transfer-motion" then 2
  else if effectName = "chopper" then 4
  else if effectName = "source" ∨ effectName = "source-local" ∨ effectName = "noise" then 0
  else 1

/-- `getEntryById(nodeId)`: `effectChain.find(e => e.id === nodeId)`. -/
def getEntryById (chain : List ChainNode) (nodeId : String) : Option ChainNode :=
  chain.find? (fun e => e.id = nodeId)

/-- `while (inputs.length < maxInputs) inputs.push(null)`. -/
def padTo (l : List (Option String)) (n : Nat) : List (Option String) :=
  l ++ List.replicate (n - l.length) none

/-- `inputs[portIndex] = fromId` on a JavaScript array: in-bounds
assignment replaces the slot, out-of-bounds assignment extends the array
with holes (modelled as `none`) before the new element. -/
def setAt (l : List (Option String)) (i : Nat) (v : String) : List (Option String) :=
  if i < l.length then l.set i (some v)
  else l ++ List.replicate (i - l.length) none ++ [some v]

/-- The dedup loop of `connectNodes`: null out every slot other than
`portIndex` that holds `fromId`; `i` is the index of the list head. -/
def clearOthers : List (Option String) → String → Nat → Nat → List (Option String)
  | [], _, _, _ => []
  | v :: rest, fromId, portIndex, i =>
      (if v = some fromId ∧ i ≠ portIndex then none else v)
        :: clearOthers rest fromId portIndex (i + 1)

/-- Replace the `inputs` of the first node whose id is `nodeId` (the
object aliasing performed by `target.inputs = ...` in the source). -/
def setInputsFirst : List ChainNode → String → List (Option String) → List ChainNode
  | [], _, _ => []
  | e :: rest, nodeId, ins =>
      if e.id = nodeId then { e with inputs := ins } :: rest
      else e :: setInputsFirst rest nodeId ins

/-- `connectNodes(fromId, toId, portIndex)` from part_003 lines 539-556. -/
def connectNodes (chain : List ChainNode) (fromId toId : String) (portIndex : Nat) :
    List ChainNode :=
  if fromId = "" ∨ toId = "" ∨ fromId = toId then chain
  else
    match getEntryById chain toId with
    | none => chain
    | some target =>
        let maxInputs := getMaxInputs target.name
        if maxInputs = 0 then chain
        else
          let inputs0 := padTo target.inputs maxInputs
          let inputs1 := setAt inputs0 portIndex fromId
          let inputs2 := clearOthers inputs1 fromId portIndex 0
          setInputsFirst chain toId (inputs2.take maxInputs)

/-- The purge loop of `removeEffectById`:
`e.inputs = (e.inputs || []).filter(i => i !== nodeId)` for each node. -/
def purgeInputs (chain : List ChainNode) (nodeId : String) : List ChainNode :=
  chain.map (fun e => { e with inputs := e.inputs.filter (fun i => i ≠ some nodeId) })

/-- `removeEffectById(nodeId)` from part_003 lines 1025-1037: find the
index of the node; return unchanged when absent; otherwise splice it out
and purge references to it from every remaining node. -/
def removeEffectById (chain : List ChainNode) (nodeId : String) : List ChainNode :=
  if (chain.findIdx? (fun e => e.id = nodeId)).isNone then chain
  else purgeInputs (chain.eraseP (fun e => e.id = nodeId)) nodeId

/-- An effect definition's identity, as far as the chain model reads it. -/
structure EffectDef where
  name : String
deriving DecidableEq, Repr

/-- `getEffectDefinition(name)`: `availableEffects.find(e => e.name === name)`. -/
def getEffectDefinition (availableEffects : List EffectDef) (name : String) :
    Option EffectDef :=
  availableEffects.find? (fun e => e.name = name)

/-- Result of `addEffect`: the chain afterwards, and whether the
user-facing warning toast fired. -/
structure AddEffectResult where
  chain : List ChainNode
  warned : Bool
deriving DecidableEq, Repr

/-- `addEffect(name, positionOverride)` from part_003 lines 1039-1052.
The fresh id produced by `makeNodeId()` and the resolved position
(`positionOverride || getViewportCenterPosition() || getDefaultPosition`)
are passed in as parameters, since they come from mutable counters and the
DOM respectively. -/
def addEffect (availableEffects : List EffectDef) (freshId : String) (position : Pos)
    (chain : List ChainNode) (name : String) : AddEffectResult :=
  if name = "source-local" ∧ chain.any (fun e => e.name = "source-local") then
    { chain := chain, warned := true }
  else
    match (getEffectDefinition availableEffects name).orElse
        (fun _ => availableEffects.head?) with
    | none => { chain := chain, warned := false }
    | some d =>
        let node : ChainNode :=
          { id := freshId, name := d.name, options := [], inputs := [],
            position := position }
        { chain := chain ++ [node], warned := false }

/-- The effect-select change handler (part_003 lines 741-754 / 886-899):
retarget the node to `newName`, clear its options, truncate its inputs to
the new effect's max-input count. Applied to the first node with the given
id (the handler closes over that node object). -/
def retargetFirst : List ChainNode → String → String → List ChainNode
  | [], _, _ => []
  | e :: rest, nodeId, newName =>
      if e.id = nodeId then
        { e with
          name := newName
          options := []
          inputs :=
            if getMaxInputs newName < e.inputs.length then
              e.inputs.take (getMaxInputs newName)
            else e.inputs } :: rest
      else e :: retargetFirst rest nodeId newName

/-- `getDefaultPosition(idx)` from part_003 lines 253-259:
4 columns, 360px column spacing, 160px row spacing, origin (120, 120). -/
def getDefaultPosition (idx : Nat) : Pos :=
  { x := 120 + (idx % 4 : Nat) * 360, y := 120 + (idx / 4 : Nat) * 160 }

/-- `makeNodeId()`: increments the module counter and returns
`node_${Date.now()}_${counter}`; `time` stands for `Date.now()` and
`counter` for the counter value before the call. -/
def makeNodeId (time counter : Nat) : String :=
  "node_" ++ toString time ++ "_" ++ toString (counter + 1)

/-- A raw (persisted / wire-format) chain entry as `normalizeChainData`
receives it: any of `id`, `options`, `inputs`, `position` may be absent.
`id = some ""` models a present-but-falsy id (also replaced). `inputs = none`
models a value failing the `Array.isArray` test. -/
structure RawEntry where
  id : Option String
  name : String
  options : Option Options
  inputs : Option (List (Option String))
  position : Option Pos
deriving DecidableEq, Repr

/-- `entry.id || makeNodeId()`: keep a truthy (non-empty) id, otherwise
generate a fresh one, advancing the counter. Returns the chosen id and the
counter afterwards. -/
def resolveId (time counter : Nat) (id : Option String) : String × Nat :=
  match id with
  | some s => if s = "" then (makeNodeId time counter, counter + 1) else (s, counter)
  | none => (makeNodeId time counter, counter + 1)

/-- Normalization of one entry at index `idx` (the body of the `map` in
`normalizeChainData`), threading the id counter. -/
def normalizeEntry (time counter idx : Nat) (entry : RawEntry) : ChainNode × Nat :=
  let r := resolveId time counter entry.id
  ({ id := r.1
     name := entry.name
     options := entry.options.getD []
     inputs := entry.inputs.getD []
     position := entry.position.getD (getDefaultPosition idx) }, r.2)

/-- The recursion underlying `normalizeChainData`: normalize each entry at
its index, threading the id counter left to right. -/
def normalizeAux (time : Nat) : Nat → Nat → List RawEntry → List ChainNode × Nat
  | counter, _, [] => ([], counter)
  | counter, idx, e :: rest =>
      let n := normalizeEntry time counter idx e
      let ns := normalizeAux time n.2 (idx + 1) rest
      (n.1 :: ns.1, ns.2)

/-- `normalizeChainData(chain)` from part_003 lines 271-283, on an array
argument (a non-array argument returns `[]` before this code runs). -/
def normalizeChainData (time counter : Nat) (chain : List RawEntry) :
    List ChainNode × Nat :=
  normalizeAux time counter 0 chain

/-- Serialization of a canonical node to the wire-format entry
`{id, name, options, inputs, position}` (every field present). -/
def toRaw (n : ChainNode) : RawEntry :=
  { id := some n.id, name := n.name, options := some n.options,
    inputs := some n.inputs, position := some n.position }

/-! Concrete nodes reused by witnesses and counterexamples. -/

/-- A concrete source node. -/
def srcNode : ChainNode :=
  { id := "s", name := "source", options := [], inputs := [], position := ⟨0, 0⟩ }

/-- A concrete mix node with empty inputs. -/
def mixNode : ChainNode :=
  { id := "m", name := "mix", options := [], inputs := [], position := ⟨1, 1⟩ }

/-- Viewport pan/zoom state `{x, y, scale}`. -/
structure ViewportState where
  x : ℚ
  y : ℚ
  scale : ℚ
deriving DecidableEq, Repr

/-- `clampScale(value)` from part_003 lines 177-179:
`Math.min(1.9, Math.max(0.45, value))`. -/
def clampScale (value : ℚ) : ℚ :=
  min (19 / 10) (max (45 / 100) value)

/-- `clientToWorld(clientX, clientY)`: stage-local pointer coordinates
mapped through the inverse viewport transform. `rectLeft`/`rectTop` stand
for `nodeStage.getBoundingClientRect()`. -/
def clientToWorld (vp : ViewportState) (rectLeft rectTop clientX clientY : ℚ) : ℚ × ℚ :=
  ((clientX - rectLeft - vp.x) / vp.scale, (clientY - rectTop - vp.y) / vp.scale)

/-- One wheel-zoom update from `setupZoom` (part_003 lines 644-668):
`delta = deltaY * -0.001`, the scale is multiplied by `1 + delta` and
clamped, and the pan offset is recomputed so that the pre-zoom world point
under the pointer maps back to the pointer. -/
def wheelZoom (vp : ViewportState) (rectLeft rectTop clientX clientY deltaY : ℚ) :
    ViewportState :=
  let before := clientToWorld vp rectLeft rectTop clientX clientY
  let delta := deltaY * (-1 / 1000)
  let newScale := clampScale (vp.scale * (1 + delta))
  { x := (clientX - rectLeft) - before.1 * newScale,
    y := (clientY - rectTop) - before.2 * newScale,
    scale := newScale }

/-! ## Helper lemmas about the inputs-array primitives -/

lemma clearOthers_length (l : List (Option String)) (f : String) (p : Nat) :
    ∀ i0, (clearOthers l f p i0).length = l.length := by
  induction l with
  | nil => intro i0; rfl
  | cons v rest ih => intro i0; simp [clearOthers, ih]

lemma clearOthers_getElem? (l : List (Option String)) (f : String) (p : Nat) :
    ∀ i0 k, (clearOthers l f p i0)[k]? =
      (l[k]?).map (fun v => if v = some f ∧ i0 + k ≠ p then none else v) := by
  induction l with
  | nil => intro i0 k; simp [clearOthers]
  | cons v rest ih =>
      intro i0 k
      cases k with
      | zero => simp [clearOthers]
      | succ k =>
          have h := ih (i0 + 1) k
          have harith : i0 + 1 + k = i0 + (k + 1) := by omega
          simp [clearOthers, h, harith]

lemma padTo_length (l : List (Option String)) (n : Nat) :
    (padTo l n).length = max l.length n := by
  simp [padTo]; omega

lemma padTo_getElem? (l : List (Option String)) (n k : Nat) :
    (padTo l n)[k]? =
      if k < l.length then l[k]? else if k < n then some none else none := by
  by_cases hk : k < l.length
  · simp [padTo, List.getElem?_append, hk]
  · by_cases hn : k < n
    · have h1 : k - l.length < n - l.length := by omega
      simp [padTo, List.getElem?_append, hk, List.getElem?_replicate, h1, hn]
    · have h1 : ¬(k - l.length < n - l.length) := by omega
      simp [padTo, List.getElem?_append, hk, List.getElem?_replicate, h1, hn]

lemma padTo_eq_self (l : List (Option String)) (n : Nat) (h : n ≤ l.length) :
    padTo l n = l := by
  simp [padTo, Nat.sub_eq_zero_of_le h]

lemma setAt_length_of_lt (l : List (Option String)) (p : Nat) (v : String)
    (h : p < l.length) : (setAt l p v).length = l.length := by
  simp [setAt, h]

lemma setAt_getElem?_self (l : List (Option String)) (p : Nat) (v : String) :
    (setAt l p v)[p]? = some (some v) := by
  unfold setAt
  split
  · simp [List.getElem?_set]
    omega
  · have hlen : (l ++ List.replicate (p - l.length) (none : Option String)).length = p := by
      simp; omega
    calc (l ++ List.replicate (p - l.length) none ++ [some v])[p]?
        = (l ++ List.replicate (p - l.length) none ++ [some v])[(l ++ List.replicate (p - l.length) (none : Option String)).length]? := by rw [hlen]
      _ = some (some v) := List.getElem?_concat_length _ _

lemma setAt_getElem?_ne (l : List (Option String)) (p k : Nat) (v : String)
    (hk : k < l.length) (hne : k ≠ p) :
    (setAt l p v)[k]? = l[k]? := by
  unfold setAt
  split
  · rw [List.getElem?_set, if_neg (by omega)]
  · have h1 : k < (l ++ List.replicate (p - l.length) (none : Option String)).length := by
      simp; omega
    simp [List.getElem?_append, h1, hk]

/-! ## Helper lemmas about chain lookup and first-match update -/

lemma getEntryById_cons (e : ChainNode) (rest : List ChainNode) (nid : String) :
    getEntryById (e :: rest) nid =
      if e.id = nid then some e else getEntryById rest nid := by
  by_cases h : e.id = nid
  · simp [getEntryById, List.find?_cons, h]
  · simp [getEntryById, List.find?_cons, h]

lemma getEntryById_setInputsFirst (chain : List ChainNode) (nid : String)
    (ins : List (Option String)) (t : ChainNode)
    (h : getEntryById chain nid = some t) :
    getEntryById (setInputsFirst chain nid ins) nid = some { t with inputs := ins } := by
  induction chain with
  | nil => simp [getEntryById] at h
  | cons e rest ih =>
      by_cases he : e.id = nid
      · rw [getEntryById_cons, if_pos he] at h
        cases h
        simp [setInputsFirst, he, getEntryById_cons]
      · rw [getEntryById_cons, if_neg he] at h
        simp [setInputsFirst, he, getEntryById_cons, ih h]

lemma mem_setInputsFirst (chain : List ChainNode) (nid : String)
    (ins : List (Option String)) (e' : ChainNode)
    (h : e' ∈ setInputsFirst chain nid ins) :
    e' ∈ chain ∨ ∃ t, getEntryById chain nid = some t ∧ e' = { t with inputs := ins } := by
  induction chain with
  | nil => simp [setInputsFirst] at h
  | cons e rest ih =>
      by_cases he : e.id = nid
      · rw [setInputsFirst, if_pos he] at h
        rcases List.mem_cons.mp h with h1 | h1
        · exact Or.inr ⟨e, by simp [getEntryById_cons, he], h1⟩
        · exact Or.inl (List.mem_cons.mpr (Or.inr h1))
      · rw [setInputsFirst, if_neg he] at h
        rcases List.mem_cons.mp h with h1 | h1
        · exact Or.inl (List.mem_cons.mpr (Or.inl h1))
        · rcases ih h1 with h2 | ⟨t, ht, he'⟩
          · exact Or.inl (List.mem_cons.mpr (Or.inr h2))
          · exact Or.inr ⟨t, by simp [getEntryById_cons, he, ht], he'⟩

lemma mem_retargetFirst (chain : List ChainNode) (nid newName : String) (e' : ChainNode)
    (h : e' ∈ retargetFirst chain nid newName) :
    e' ∈ chain ∨ ∃ t ∈ chain,
      e' = { t with
              name := newName
              options := []
              inputs :=
                if getMaxInputs newName < t.inputs.length then
                  t.inputs.take (getMaxInputs newName)
                else t.inputs } := by
  induction chain with
  | nil => simp [retargetFirst] at h
  | cons e rest ih =>
      by_cases he : e.id = nid
      · rw [retargetFirst, if_pos he] at h
        rcases List.mem_cons.mp h with h1 | h1
        · exact Or.inr ⟨e, List.mem_cons_self _ _, h1⟩
        · exact Or.inl (List.mem_cons.mpr (Or.inr h1))
      · rw [retargetFirst, if_neg he] at h
        rcases List.mem_cons.mp h with h1 | h1
        · exact Or.inl (List.mem_cons.mpr (Or.inl h1))
        · rcases ih h1 with h2 | ⟨t, ht, he'⟩
          · exact Or.inl (List.mem_cons.mpr (Or.inr h2))
          · exact Or.inr ⟨t, List.mem_cons.mpr (Or.inr ht), he'⟩

lemma connectNodes_eq_of_found (chain : List ChainNode) (fromId toId : String)
    (p : Nat) (t : ChainNode)
    (hf : fromId ≠ "") (ht : toId ≠ "") (hne : fromId ≠ toId)
    (hfind : getEntryById chain toId = some t)
    (hmax : getMaxInputs t.name ≠ 0) :
    connectNodes chain fromId toId p =
      setInputsFirst chain toId
        ((clearOthers (setAt (padTo t.inputs (getMaxInputs t.name)) p fromId)
            fromId p 0).take (getMaxInputs t.name)) := by
  unfold connectNodes
  rw [if_neg (by simp [hf, ht, hne]), hfind]
  simp [hmax]

/-! ## Claim theorems -/

/-- C1: for every chain and every node id present in it, after
`removeNode(id)` (`removeEffectById`) no remaining node's inputs array
contains any occurrence of `id` — removal leaves no dangling references. -/
theorem removeEffectById_no_dangling (chain : List ChainNode) (nodeId : String)
    (h : ∃ e ∈ chain, e.id = nodeId) :
    ∀ e' ∈ removeEffectById chain nodeId, some nodeId ∉ e'.inputs := by
  intro e' he'
  unfold removeEffectById at he'
  rw [if_neg] at he'
  · rcases List.mem_map.mp he' with ⟨e, _, heq⟩
    intro hmem
    rw [← heq] at hmem
    have := (List.mem_filter.mp hmem).2
    simp at this
  · intro hnone
    rcases h with ⟨e, he, hid⟩
    have := (List.findIdx?_eq_none_iff.mp (Option.isNone_iff_eq_none.mp hnone)) e he
    simp [hid] at this

/-- Witness for C1: removing the referenced source node from a two-node
chain leaves no reference to it in the surviving mix node. -/
theorem removeEffectById_no_dangling_witness :
    some "s" ∉ ({ mixNode with inputs := [none] } : ChainNode).inputs :=
  removeEffectById_no_dangling
    [srcNode, { mixNode with inputs := [some "s", none] }] "s"
    ⟨srcNode, by decide, by decide⟩
    { mixNode with inputs := [none] } (by decide)

/-- C2 counterexample: in a chain where nodes `x` and `y` both reference
node `r` at `inputs[0]`, removing `r` leaves both with `inputs = []` — the
vacated slot 0 does not keep its index via a null placeholder. -/
theorem removeEffectById_no_placeholder_counterexample :
    (removeEffectById
        [{ id := "r", name := "glitch", options := [], inputs := [], position := ⟨0, 0⟩ },
         { id := "x", name := "glitch", options := [], inputs := [some "r"], position := ⟨2, 0⟩ },
         { id := "y", name := "glitch", options := [], inputs := [some "r"], position := ⟨3, 0⟩ }]
        "r").map ChainNode.inputs = [[], []]
    ∧ ([[], []] : List (List (Option String))) ≠ [[none], [none]] := by
  constructor
  · decide
  · decide

/-- C2 amended: `removeEffectById` drops every reference to the removed id
by filtering, which renumbers — surviving entries shift down and vacated
slots leave no null placeholder. In the two-referencing-nodes scenario both
nodes' `inputs` become empty (and no exception is thrown: the operation is
total). -/
theorem removeEffectById_filters_and_renumbers
    (r x y nR nX nY : String) (oR oX oY : Options) (iR : List (Option String))
    (e1 : Option String) (pR pX pY : Pos) (hx : x ≠ r) (hy : y ≠ r) :
    removeEffectById
        [{ id := r, name := nR, options := oR, inputs := iR, position := pR },
         { id := x, name := nX, options := oX, inputs := [some r], position := pX },
         { id := y, name := nY, options := oY, inputs := [some r, e1], position := pY }]
        r
      = [{ id := x, name := nX, options := oX, inputs := [], position := pX },
         { id := y, name := nY, options := oY,
           inputs := if e1 = some r then [] else [e1], position := pY }] := by
  unfold removeEffectById
  rw [if_neg (by simp [List.findIdx?_cons])]
  rw [List.eraseP_cons]
  unfold purgeInputs
  by_cases he : e1 = some r
  · simp [List.filter, he]
  · simp [List.filter, he]

/-- Witness for C2 (amended): concrete instance of the renumbering
behaviour of `removeEffectById`. -/
theorem removeEffectById_filters_and_renumbers_witness :
    removeEffectById
        [{ id := "r", name := "glitch", options := [], inputs := [], position := ⟨0, 0⟩ },
         { id := "x", name := "glitch", options := [], inputs := [some "r"], position := ⟨2, 0⟩ },
         { id := "y", name := "glitch", options := [], inputs := [some "r", none], position := ⟨3, 0⟩ }]
        "r"
      = [{ id := "x", name := "glitch", options := [], inputs := [], position := ⟨2, 0⟩ },
         { id := "y", name := "glitch", options := [], inputs := [none], position := ⟨3, 0⟩ }] := by
  simpa using
    removeEffectById_filters_and_renumbers "r" "x" "y" "glitch" "glitch" "glitch"
      [] [] [] [] none ⟨0, 0⟩ ⟨2, 0⟩ ⟨3, 0⟩ (by decide) (by decide)

/-- C8: adding a second `source-local` node leaves the chain unchanged and
fires the user-facing warning toast. -/
theorem addEffect_duplicate_source_local (effs : List EffectDef) (freshId : String)
    (pos : Pos) (chain : List ChainNode)
    (h : ∃ e ∈ chain, e.name = "source-local") :
    addEffect effs freshId pos chain "source-local" = { chain := chain, warned := true } := by
  rcases h with ⟨e, he, hname⟩
  unfold addEffect
  rw [if_pos]
  exact ⟨rfl, List.any_eq_true.mpr ⟨e, he, by simp [hname]⟩⟩

/-- A concrete `source-local` node. -/
def slNode : ChainNode :=
  { id := "a", name := "source-local", options := [], inputs := [], position := ⟨0, 0⟩ }

/-- Witness for C8: a chain holding a `source-local` node rejects a second
one and warns. -/
theorem addEffect_duplicate_source_local_witness :
    addEffect [⟨"source-local"⟩, ⟨"glitch"⟩] "node_0_1" ⟨5, 5⟩ [slNode] "source-local"
      = { chain := [slNode], warned := true } :=
  addEffect_duplicate_source_local [⟨"source-local"⟩, ⟨"glitch"⟩] "node_0_1" ⟨5, 5⟩ [slNode]
    ⟨slNode, by decide, by decide⟩

/-- C6 counterexample: `"ghost"` is not the id of any node in the chain,
yet `connectNodes` with it as `fromId` changes the chain — the missing-id
check covers only falsiness and the target lookup, not `fromId`'s presence. -/
theorem connectNodes_missing_fromId_counterexample :
    ("ghost" ∉ [mixNode].map ChainNode.id)
    ∧ connectNodes [mixNode] "ghost" "m" 0 ≠ [mixNode] := by
  constructor
  · decide
  · decide

/-- C6 amended: `connectNodes(fromId, toId, portIndex)` is a no-op when
either id is falsy, the two ids are equal, `toId` is not the id of any node
in the chain, or the target effect accepts zero inputs; the presence of
`fromId` in the chain is never checked. -/
theorem connectNodes_noop_cases (chain : List ChainNode) (fromId toId : String) (p : Nat)
    (h : fromId = "" ∨ toId = "" ∨ fromId = toId ∨ getEntryById chain toId = none
      ∨ ∃ t, getEntryById chain toId = some t ∧ getMaxInputs t.name = 0) :
    connectNodes chain fromId toId p = chain := by
  unfold connectNodes
  by_cases hg : fromId = "" ∨ toId = "" ∨ fromId = toId
  · rw [if_pos hg]
  · rw [if_neg hg]
    rcases h with h | h | h | h | ⟨t, ht, hmax⟩
    · exact absurd (Or.inl h) hg
    · exact absurd (Or.inr (Or.inl h)) hg
    · exact absurd (Or.inr (Or.inr h)) hg
    · rw [h]
    · rw [ht]
      simp [hmax]

/-- Witness for C6 (amended): connecting onto a zero-input source node is
a no-op. -/
theorem connectNodes_noop_cases_witness :
    connectNodes [srcNode, mixNode] "m" "s" 0 = [srcNode, mixNode] :=
  connectNodes_noop_cases [srcNode, mixNode] "m" "s" 0
    (Or.inr (Or.inr (Or.inr (Or.inr ⟨srcNode, by decide, by decide⟩))))

/-- C7 counterexample: port index 5 on a mix node (max-input count 2) is
invalid, yet the call is not a no-op — the existing reference to `"s"` at
slot 0 is cleared, so the target's inputs change. -/
theorem connectNodes_invalid_port_counterexample :
    getMaxInputs "mix" ≤ 5
    ∧ connectNodes [srcNode, { mixNode with inputs := [some "s", none] }] "s" "m" 5
      ≠ [srcNode, { mixNode with inputs := [some "s", none] }] := by
  constructor
  · decide
  · decide

/-- C7 amended: a `connectNodes` call with an invalid port index
(`portIndex ≥` the target's max-input count) never adds `fromId` to the
target's inputs and completes without exception (the operation is total),
but it is not a strict no-op: the target's inputs are padded with nulls up
to the max-input count and any existing occurrence of `fromId` in them is
cleared to null. -/
theorem connectNodes_invalid_port (chain : List ChainNode) (fromId toId : String)
    (p : Nat) (t : ChainNode)
    (hf : fromId ≠ "") (ht : toId ≠ "") (hne : fromId ≠ toId)
    (hfind : getEntryById chain toId = some t)
    (hmax : getMaxInputs t.name ≠ 0)
    (hp : getMaxInputs t.name ≤ p) :
    ∃ t', getEntryById (connectNodes chain fromId toId p) toId = some t'
      ∧ t'.inputs = ((padTo t.inputs (getMaxInputs t.name)).take (getMaxInputs t.name)).map
          (fun v => if v = some fromId then none else v)
      ∧ some fromId ∉ t'.inputs := by
  rw [connectNodes_eq_of_found chain fromId toId p t hf ht hne hfind hmax]
  set max := getMaxInputs t.name with hmaxdef
  set ins := (clearOthers (setAt (padTo t.inputs max) p fromId) fromId p 0).take max with hins
  have hpadlen : max ≤ (padTo t.inputs max).length := by
    rw [padTo_length]; omega
  have heq : ins = ((padTo t.inputs max).take max).map
      (fun v => if v = some fromId then none else v) := by
    apply List.ext_getElem?
    intro k
    by_cases hk : k < max
    · have hkp : k ≠ p := by omega
      rw [hins, List.getElem?_take, if_pos hk, clearOthers_getElem?,
        setAt_getElem?_ne _ _ _ _ (by omega) hkp,
        List.getElem?_map, List.getElem?_take, if_pos hk]
      cases (padTo t.inputs max)[k]? with
      | none => rfl
      | some v => simp [hkp]
    · rw [hins, List.getElem?_take, if_neg hk, List.getElem?_map, List.getElem?_take,
        if_neg hk]
      rfl
  refine ⟨{ t with inputs := ins }, getEntryById_setInputsFirst chain toId ins t hfind,
    heq, ?_⟩
  intro hmem
  have hmem' : some fromId ∈ ins := hmem
  rw [heq] at hmem'
  rcases List.mem_map.mp hmem' with ⟨v, _, hv⟩
  by_cases hveq : v = some fromId
  · rw [if_pos hveq] at hv
    exact Option.noConfusion hv
  · rw [if_neg hveq] at hv
    exact hveq hv

/-- Witness for C7 (amended): concrete invalid-port connect on a mix node. -/
theorem connectNodes_invalid_port_witness :
    ∃ t', getEntryById
        (connectNodes [srcNode, { mixNode with inputs := [some "s", none] }] "s" "m" 5) "m"
        = some t'
      ∧ t'.inputs = ((padTo [some "s", none] (getMaxInputs "mix")).take
          (getMaxInputs "mix")).map (fun v => if v = some "s" then none else v)
      ∧ some "s" ∉ t'.inputs :=
  connectNodes_invalid_port [srcNode, { mixNode with inputs := [some "s", none] }]
    "s" "m" 5 { mixNode with inputs := [some "s", none] }
    (by decide) (by decide) (by decide) (by decide) (by decide) (by decide)

/-- C4 counterexample: with chain `[source, mix]`, `connect(s, m, 0)` then
`connect(s, m, 1)` yields `mix.inputs = [null, s]`, not `[s, s]` — the
dedup pass of `connectNodes` clears the slot written by the first call. -/
theorem connect_both_ports_counterexample :
    connectNodes (connectNodes [srcNode, mixNode] "s" "m" 0) "s" "m" 1
      = [srcNode, { mixNode with inputs := [none, some "s"] }]
    ∧ connectNodes (connectNodes [srcNode, mixNode] "s" "m" 0) "s" "m" 1
      ≠ [srcNode, { mixNode with inputs := [some "s", some "s"] }] := by
  constructor
  · decide
  · decide

/-- C4 amended: with chain `[source, mix]` (mix max-inputs = 2),
`connect(sourceId, mixId, 0)` followed by `connect(sourceId, mixId, 1)`
yields `mix.inputs = [null, sourceId]`: the second connect moves the
reference to port 1, because `connectNodes` removes `fromId` from every
other slot of the same target — the two ports cannot simultaneously
reference the same source. -/
theorem connect_same_source_moves_reference (sId mId : String) (oS oM : Options)
    (iS : List (Option String)) (pS pM : Pos)
    (hs : sId ≠ "") (hm : mId ≠ "") (hne : sId ≠ mId) :
    connectNodes (connectNodes
        [{ id := sId, name := "source", options := oS, inputs := iS, position := pS },
         { id := mId, name := "mix", options := oM, inputs := [], position := pM }]
        sId mId 0) sId mId 1
      = [{ id := sId, name := "source", options := oS, inputs := iS, position := pS },
         { id := mId, name := "mix", options := oM, inputs := [none, some sId],
           position := pM }] := by
  simp [connectNodes, getEntryById, List.find?_cons, hs, hm, hne, getMaxInputs,
    padTo, setAt, clearOthers, setInputsFirst, List.replicate]

/-- Witness for C4 (amended): concrete source/mix chain. -/
theorem connect_same_source_moves_reference_witness :
    connectNodes (connectNodes [srcNode, mixNode] "s" "m" 0) "s" "m" 1
      = [srcNode, { mixNode with inputs := [none, some "s"] }] := by
  simpa using
    connect_same_source_moves_reference "s" "m" [] [] [] ⟨0, 0⟩ ⟨1, 1⟩
      (by decide) (by decide) (by decide)

/-- No-op shape of `connectNodes` when the falsy/equal-id guard fires. -/
lemma connectNodes_eq_self_of_guard (chain : List ChainNode) (fromId toId : String)
    (p : Nat) (hg : fromId = "" ∨ toId = "" ∨ fromId = toId) :
    connectNodes chain fromId toId p = chain := by
  unfold connectNodes
  rw [if_pos hg]

/-- No-op shape of `connectNodes` when the target id is not in the chain. -/
lemma connectNodes_eq_self_of_not_found (chain : List ChainNode) (fromId toId : String)
    (p : Nat) (hf : fromId ≠ "") (ht : toId ≠ "") (hne : fromId ≠ toId)
    (hfind : getEntryById chain toId = none) :
    connectNodes chain fromId toId p = chain := by
  unfold connectNodes
  rw [if_neg (by simp [hf, ht, hne]), hfind]

/-- No-op shape of `connectNodes` when the target accepts zero inputs. -/
lemma connectNodes_eq_self_of_max_zero (chain : List ChainNode) (fromId toId : String)
    (p : Nat) (t : ChainNode) (hf : fromId ≠ "") (ht : toId ≠ "") (hne : fromId ≠ toId)
    (hfind : getEntryById chain toId = some t) (hmax : getMaxInputs t.name = 0) :
    connectNodes chain fromId toId p = chain := by
  unfold connectNodes
  rw [if_neg (by simp [hf, ht, hne]), hfind]
  simp [hmax]

/-- Every node of a post-`connectNodes` chain is either an original node or
the looked-up target with rewritten inputs of length at most its max-input
count. -/
lemma mem_connectNodes (chain : List ChainNode) (fromId toId : String) (p : Nat)
    (e' : ChainNode) (he : e' ∈ connectNodes chain fromId toId p) :
    e' ∈ chain ∨ ∃ t ins, getEntryById chain toId = some t
      ∧ ins.length ≤ getMaxInputs t.name ∧ e' = { t with inputs := ins } := by
  by_cases hg : fromId = "" ∨ toId = "" ∨ fromId = toId
  · rw [connectNodes_eq_self_of_guard chain fromId toId p hg] at he
    exact Or.inl he
  · push_neg at hg
    obtain ⟨hf, ht, hne⟩ := hg
    cases hfind : getEntryById chain toId with
    | none =>
        rw [connectNodes_eq_self_of_not_found chain fromId toId p hf ht hne hfind] at he
        exact Or.inl he
    | some t =>
        by_cases hmax : getMaxInputs t.name = 0
        · rw [connectNodes_eq_self_of_max_zero chain fromId toId p t hf ht hne hfind hmax]
            at he
          exact Or.inl he
        · rw [connectNodes_eq_of_found chain fromId toId p t hf ht hne hfind hmax] at he
          rcases mem_setInputsFirst _ _ _ _ he with h1 | ⟨t', ht', he'⟩
          · exact Or.inl h1
          · have htt : t' = t := by
              rw [hfind] at ht'
              exact (Option.some.injEq _ _).mp ht'.symm
            subst htt
            refine Or.inr ⟨t',
              (clearOthers (setAt (padTo t'.inputs (getMaxInputs t'.name)) p fromId)
                fromId p 0).take (getMaxInputs t'.name), rfl, ?_, he'⟩
            rw [List.length_take]
            exact min_le_left _ _

/-- C5: the max-input invariant is preserved — if every node's
`inputs.length` is at most its effect's max-input count, the same holds
after any `connectNodes` call and after any effect-select retarget. -/
theorem inputs_length_bounded (chain : List ChainNode) (fromId toId nid newName : String)
    (p : Nat)
    (h : ∀ e ∈ chain, e.inputs.length ≤ getMaxInputs e.name) :
    (∀ e ∈ connectNodes chain fromId toId p, e.inputs.length ≤ getMaxInputs e.name)
    ∧ (∀ e ∈ retargetFirst chain nid newName, e.inputs.length ≤ getMaxInputs e.name) := by
  constructor
  · intro e he
    rcases mem_connectNodes chain fromId toId p e he with h1 | ⟨t, ins, _, hlen, he'⟩
    · exact h e h1
    · subst he'
      exact hlen
  · intro e he
    rcases mem_retargetFirst chain nid newName e he with h1 | ⟨t, _, he'⟩
    · exact h e h1
    · subst he'
      show (if getMaxInputs newName < t.inputs.length then
          t.inputs.take (getMaxInputs newName) else t.inputs).length ≤ getMaxInputs newName
      split
      · rw [List.length_take]
        exact min_le_left _ _
      · omega

/-- Witness for C5: after connecting the source into the mix node, the mix
node's two input slots respect its max-input count. -/
theorem inputs_length_bounded_witness :
    ({ mixNode with inputs := [some "s", none] } : ChainNode).inputs.length
      ≤ getMaxInputs "mix" :=
  (inputs_length_bounded [srcNode, mixNode] "s" "m" "m" "glitch" 0 (by decide)).1
    { mixNode with inputs := [some "s", none] } (by decide)

/-- Pointwise description of the inputs array produced by a `connectNodes`
call with a valid port index. -/
lemma newInputs_getElem? (l : List (Option String)) (f : String) (p max k : Nat)
    (hp : p < max) :
    ((clearOthers (setAt (padTo l max) p f) f p 0).take max)[k]? =
      if k < max then
        (if k = p then some (some f)
         else ((padTo l max)[k]?).map (fun v => if v = some f then none else v))
      else none := by
  have hpadlen : max ≤ (padTo l max).length := by
    rw [padTo_length]; omega
  by_cases hk : k < max
  · rw [List.getElem?_take, if_pos hk, if_pos hk, clearOthers_getElem?]
    by_cases hkp : k = p
    · subst hkp
      rw [setAt_getElem?_self, if_pos rfl]
      simp
    · rw [setAt_getElem?_ne _ _ _ _ (by omega) hkp, if_neg hkp]
      simp [hkp]
  · rw [List.getElem?_take, if_neg hk, if_neg hk]

/-- Length of the inputs array produced by a `connectNodes` call with a
valid port index. -/
lemma newInputs_length (l : List (Option String)) (f : String) (p max : Nat)
    (hp : p < max) :
    ((clearOthers (setAt (padTo l max) p f) f p 0).take max).length = max := by
  rw [List.length_take, clearOthers_length,
    setAt_length_of_lt _ _ _ (by rw [padTo_length]; omega), padTo_length]
  omega

/-- C3: connecting `fromId` into `toId` at one port and then at another
port leaves `fromId` present in exactly one slot of the target's inputs —
the slot of the second port — because `connectNodes` removes `fromId` from
every other slot of the same target. -/
theorem connect_reconnect_unique_slot (chain : List ChainNode) (fromId toId : String)
    (p1 p2 : Nat) (t : ChainNode)
    (hf : fromId ≠ "") (ht : toId ≠ "") (hne : fromId ≠ toId)
    (hfind : getEntryById chain toId = some t)
    (hp1 : p1 < getMaxInputs t.name) (hp2 : p2 < getMaxInputs t.name) (hpp : p1 ≠ p2) :
    ∃ t', getEntryById
        (connectNodes (connectNodes chain fromId toId p1) fromId toId p2) toId = some t'
      ∧ t'.inputs[p2]? = some (some fromId)
      ∧ ∀ k, k ≠ p2 → t'.inputs[k]? ≠ some (some fromId) := by
  have hmax : getMaxInputs t.name ≠ 0 := by omega
  rw [connectNodes_eq_of_found chain fromId toId p1 t hf ht hne hfind hmax]
  set r1 := (clearOthers (setAt (padTo t.inputs (getMaxInputs t.name)) p1 fromId)
    fromId p1 0).take (getMaxInputs t.name) with hr1
  have hfind1 : getEntryById (setInputsFirst chain toId r1) toId
      = some { t with inputs := r1 } :=
    getEntryById_setInputsFirst chain toId r1 t hfind
  rw [connectNodes_eq_of_found _ fromId toId p2 _ hf ht hne hfind1 hmax]
  set r2 := (clearOthers (setAt (padTo r1 (getMaxInputs t.name)) p2 fromId)
    fromId p2 0).take (getMaxInputs t.name) with hr2
  have hfind2 : getEntryById
      (setInputsFirst (setInputsFirst chain toId r1) toId r2) toId
      = some { t with inputs := r2 } :=
    getEntryById_setInputsFirst _ toId r2 { t with inputs := r1 } hfind1
  refine ⟨{ t with inputs := r2 }, hfind2, ?_, ?_⟩
  · show r2[p2]? = some (some fromId)
    rw [hr2, newInputs_getElem? r1 fromId p2 (getMaxInputs t.name) p2 hp2,
      if_pos hp2, if_pos rfl]
  · intro k hk
    show r2[k]? ≠ some (some fromId)
    rw [hr2, newInputs_getElem? r1 fromId p2 (getMaxInputs t.name) k hp2]
    by_cases hkmax : k < getMaxInputs t.name
    · rw [if_pos hkmax, if_neg hk]
      have hr1len : r1.length = getMaxInputs t.name :=
        newInputs_length t.inputs fromId p1 (getMaxInputs t.name) hp1
      rw [padTo_eq_self r1 (getMaxInputs t.name) (by omega)]
      cases hv : r1[k]? with
      | none => simp
      | some v =>
          by_cases hvf : v = some fromId
          · simp [hvf]
          · simp [hvf]
    · rw [if_neg hkmax]
      simp

/-- Witness for C3: connecting the source into mix port 0 and then port 1
leaves the source referenced only at port 1. -/
theorem connect_reconnect_unique_slot_witness :
    ∃ t', getEntryById (connectNodes (connectNodes [srcNode, mixNode] "s" "m" 0) "s" "m" 1)
        "m" = some t'
      ∧ t'.inputs[1]? = some (some "s")
      ∧ ∀ k, k ≠ 1 → t'.inputs[k]? ≠ some (some "s") :=
  connect_reconnect_unique_slot [srcNode, mixNode] "s" "m" 0 1 mixNode
    (by decide) (by decide) (by decide) (by decide) (by decide) (by decide) (by decide)

/-- Normalizing the wire form of a canonical node with a truthy id returns
the node unchanged and does not consume a fresh id. -/
lemma normalizeEntry_toRaw (time counter idx : Nat) (n : ChainNode) (h : n.id ≠ "") :
    normalizeEntry time counter idx (toRaw n) = (n, counter) := by
  simp [normalizeEntry, resolveId, toRaw, h]

/-- Round-trip of `normalizeAux` over serialized canonical nodes. -/
lemma normalizeAux_toRaw (time : Nat) (chain : List ChainNode) :
    ∀ counter idx, (∀ n ∈ chain, n.id ≠ "") →
      normalizeAux time counter idx (chain.map toRaw) = (chain, counter) := by
  induction chain with
  | nil => intro c i _; rfl
  | cons n rest ih =>
      intro c i h
      have hn : n.id ≠ "" := h n (List.mem_cons_self _ _)
      have hrest : ∀ m ∈ rest, m.id ≠ "" := fun m hm => h m (List.mem_cons_of_mem _ hm)
      simp [normalizeAux, normalizeEntry_toRaw time c i n hn, ih c (i + 1) hrest]

/-- Pointwise position produced by `normalizeAux`: the entry's own
position when present, the default grid position at its index otherwise. -/
lemma normalizeAux_position (time : Nat) (raws : List RawEntry) :
    ∀ counter idx0 k,
      ((normalizeAux time counter idx0 raws).1[k]?).map ChainNode.position
        = (raws[k]?).map (fun e : RawEntry => e.position.getD (getDefaultPosition (idx0 + k))) := by
  induction raws with
  | nil => intro c i k; simp [normalizeAux]
  | cons e rest ih =>
      intro c i k
      cases k with
      | zero => simp [normalizeAux, normalizeEntry]
      | succ k =>
          have h := ih (normalizeEntry time c i e).2 (i + 1) k
          have harith : i + 1 + k = i + (k + 1) := by omega
          simp only [normalizeAux, List.getElem?_cons_succ]
          rw [h, harith]

/-- C9: `normalizeChainData` preserves id, name, options, inputs and
position of entries that carry them — normalizing the serialized form of a
canonical chain reproduces the chain exactly (and consumes no fresh ids) —
while an entry missing its position gets the deterministic default grid
position of its index and an entry missing a truthy id gets the
deterministically generated fresh id. -/
theorem normalizeChainData_roundtrip (time counter : Nat) :
    (∀ chain : List ChainNode, (∀ n ∈ chain, n.id ≠ "") →
        normalizeChainData time counter (chain.map toRaw) = (chain, counter))
    ∧ (∀ raws : List RawEntry, ∀ k : Nat,
        ((normalizeChainData time counter raws).1[k]?).map ChainNode.position
          = (raws[k]?).map (fun e : RawEntry => e.position.getD (getDefaultPosition k)))
    ∧ (∀ e : RawEntry, ∀ rest : List RawEntry, (e.id = none ∨ e.id = some "") →
        ((normalizeChainData time counter (e :: rest)).1[0]?).map ChainNode.id
          = some (makeNodeId time counter)) := by
  refine ⟨?_, ?_, ?_⟩
  · intro chain h
    exact normalizeAux_toRaw time chain counter 0 h
  · intro raws k
    simpa using normalizeAux_position time raws counter 0 k
  · intro e rest h
    rcases h with h | h <;>
      simp [normalizeChainData, normalizeAux, normalizeEntry, resolveId, h]

/-- A raw entry with a truthy id but no position. -/
def rawNoPos : RawEntry :=
  { id := some "z", name := "glitch", options := some [], inputs := some [],
    position := none }

/-- A raw entry missing id, options, inputs and position alike. -/
def rawBare : RawEntry :=
  { id := none, name := "glitch", options := none, inputs := none, position := none }

/-- Witness for C9: concrete round-trip, position fill and id fill. -/
theorem normalizeChainData_roundtrip_witness :
    normalizeChainData 5 7 ([srcNode, mixNode].map toRaw) = ([srcNode, mixNode], 7)
    ∧ ((normalizeChainData 5 7 [rawNoPos]).1[0]?).map ChainNode.position
      = some (getDefaultPosition 0)
    ∧ ((normalizeChainData 5 7 [rawBare]).1[0]?).map ChainNode.id
      = some (makeNodeId 5 7) := by
  obtain ⟨h1, h2, h3⟩ := normalizeChainData_roundtrip 5 7
  refine ⟨h1 [srcNode, mixNode] (by decide), ?_, h3 rawBare [] (Or.inl rfl)⟩
  have h := h2 [rawNoPos] 0
  simpa [rawNoPos] using h

/-- `clampScale` never goes below the minimum scale 0.45. -/
lemma clampScale_lower (v : ℚ) : 45 / 100 ≤ clampScale v :=
  le_min (by norm_num) (le_max_left _ _)

/-- `clampScale` never exceeds the maximum scale 1.9. -/
lemma clampScale_upper (v : ℚ) : clampScale v ≤ 19 / 10 :=
  min_le_left _ _

/-- The scale produced by a wheel-zoom update is never zero. -/
lemma wheelZoom_scale_ne_zero (vp : ViewportState) (rectLeft rectTop clientX clientY d : ℚ) :
    (wheelZoom vp rectLeft rectTop clientX clientY d).scale ≠ 0 := by
  have h := clampScale_lower (vp.scale * (1 + d * (-1 / 1000)))
  show clampScale (vp.scale * (1 + d * (-1 / 1000))) ≠ 0
  intro hz
  rw [hz] at h
  norm_num at h

/-- C10: the wheel-zoom update keeps the world point under the pointer
fixed whenever the clamp is not hit, zooming by inverse factors around the
same pointer restores the original scale exactly, and every post-update
scale lies within the clamp range `[0.45, 1.9]`. -/
theorem wheelZoom_spec (vp : ViewportState) (rectLeft rectTop clientX clientY d1 d2 : ℚ)
    (hinv : (1 + d1 * (-1 / 1000)) * (1 + d2 * (-1 / 1000)) = 1)
    (h1 : clampScale (vp.scale * (1 + d1 * (-1 / 1000)))
      = vp.scale * (1 + d1 * (-1 / 1000)))
    (h2 : clampScale ((wheelZoom vp rectLeft rectTop clientX clientY d1).scale
          * (1 + d2 * (-1 / 1000)))
      = (wheelZoom vp rectLeft rectTop clientX clientY d1).scale
          * (1 + d2 * (-1 / 1000))) :
    clientToWorld (wheelZoom vp rectLeft rectTop clientX clientY d1)
        rectLeft rectTop clientX clientY
      = clientToWorld vp rectLeft rectTop clientX clientY
    ∧ (wheelZoom (wheelZoom vp rectLeft rectTop clientX clientY d1)
        rectLeft rectTop clientX clientY d2).scale = vp.scale
    ∧ 45 / 100 ≤ (wheelZoom vp rectLeft rectTop clientX clientY d1).scale
    ∧ (wheelZoom vp rectLeft rectTop clientX clientY d1).scale ≤ 19 / 10 := by
  have hs : (wheelZoom vp rectLeft rectTop clientX clientY d1).scale ≠ 0 :=
    wheelZoom_scale_ne_zero vp rectLeft rectTop clientX clientY d1
  refine ⟨?_, ?_, clampScale_lower _, clampScale_upper _⟩
  · show ((clientX - rectLeft - ((clientX - rectLeft)
        - (clientX - rectLeft - vp.x) / vp.scale
          * clampScale (vp.scale * (1 + d1 * (-1 / 1000)))))
          / clampScale (vp.scale * (1 + d1 * (-1 / 1000))),
      (clientY - rectTop - ((clientY - rectTop)
        - (clientY - rectTop - vp.y) / vp.scale
          * clampScale (vp.scale * (1 + d1 * (-1 / 1000)))))
          / clampScale (vp.scale * (1 + d1 * (-1 / 1000))))
      = ((clientX - rectLeft - vp.x) / vp.scale, (clientY - rectTop - vp.y) / vp.scale)
    have hs' : clampScale (vp.scale * (1 + d1 * (-1 / 1000))) ≠ 0 := hs
    have hx : clientX - rectLeft - ((clientX - rectLeft)
        - (clientX - rectLeft - vp.x) / vp.scale
          * clampScale (vp.scale * (1 + d1 * (-1 / 1000))))
        = (clientX - rectLeft - vp.x) / vp.scale
          * clampScale (vp.scale * (1 + d1 * (-1 / 1000))) := by ring
    have hy : clientY - rectTop - ((clientY - rectTop)
        - (clientY - rectTop - vp.y) / vp.scale
          * clampScale (vp.scale * (1 + d1 * (-1 / 1000))))
        = (clientY - rectTop - vp.y) / vp.scale
          * clampScale (vp.scale * (1 + d1 * (-1 / 1000))) := by ring
    rw [hx, hy, mul_div_cancel_right₀ _ hs', mul_div_cancel_right₀ _ hs']
  · show clampScale ((wheelZoom vp rectLeft rectTop clientX clientY d1).scale
        * (1 + d2 * (-1 / 1000))) = vp.scale
    rw [h2]
    show clampScale (vp.scale * (1 + d1 * (-1 / 1000))) * (1 + d2 * (-1 / 1000)) = vp.scale
    rw [h1]
    calc vp.scale * (1 + d1 * (-1 / 1000)) * (1 + d2 * (-1 / 1000))
        = vp.scale * ((1 + d1 * (-1 / 1000)) * (1 + d2 * (-1 / 1000))) := by ring
      _ = vp.scale := by rw [hinv, mul_one]

/-- Witness for C10: a zoom-in by factor 2 followed by a zoom-out by
factor 1/2 around the same pointer, starting from the default viewport. -/
theorem wheelZoom_spec_witness :
    clientToWorld (wheelZoom ⟨40, 40, 9 / 10⟩ 0 0 3 7 (-1000)) 0 0 3 7
      = clientToWorld ⟨40, 40, 9 / 10⟩ 0 0 3 7
    ∧ (wheelZoom (wheelZoom ⟨40, 40, 9 / 10⟩ 0 0 3 7 (-1000)) 0 0 3 7 500).scale
      = (⟨40, 40, 9 / 10⟩ : ViewportState).scale
    ∧ 45 / 100 ≤ (wheelZoom ⟨40, 40, 9 / 10⟩ 0 0 3 7 (-1000)).scale
    ∧ (wheelZoom ⟨40, 40, 9 / 10⟩ 0 0 3 7 (-1000)).scale ≤ 19 / 10 :=
  wheelZoom_spec ⟨40, 40, 9 / 10⟩ 0 0 3 7 (-1000) 500 (by norm_num)
    (by norm_num [clampScale]) (by norm_num [wheelZoom, clampScale, clientToWorld])
